import Mathlib

/-!
Verification of the booking admission-control engine of the jain-tap backend
(src/src/services/db.service.js and src/src/controllers/submission.controller.js).

Modelling conventions:
* The SQLite database is a record of three tables, each a list of rows:
  `submissions`, `settings` (key/value), and `calendar_availability`
  (date/status).  `key` and `date` are PRIMARY KEY columns; the embedded
  mutators (`setSetting`, `setCalendarDateStatus`) model `INSERT OR REPLACE`
  by removing any row with the same key and appending the new row, so a
  well-formed store never holds two rows with the same key.
* Dates are `YYYY-MM-DD` TEXT in the database; all comparisons the code
  performs on them (`date(bookingDate) = date(?)`, `date >= ?`,
  `strftime(%Y-%m, bookingDate)` equality) coincide, on valid ISO strings,
  with structural equality, lexicographic order, and year-month equality on a
  `⟨year, month, day⟩` triple, which is how dates are embedded (`Ymd`).
  JavaScript `setDate(getDate() + i)` day stepping is embedded as `i`
  iterations of the Gregorian successor `nextDay`.
* JavaScript `parseInt` can yield `NaN` (every `<`/`>=` comparison against
  NaN is false); a parsed limit is therefore embedded as `Option Nat`, with
  `none` playing NaN, and the comparisons `jsGE`/`jsLT` are false at `none`.
* Each `reject(new Error(...))` site of `addSubmission` is mapped to a
  distinct `RejectKind` constructor; `rejectMessage` records the exact
  message string the site throws.
* Asynchronous sqlite callbacks are sequential inside `db.serialize` with an
  exclusive transaction, so `addSubmission` is embedded as a pure function
  from the pre-state to (result, post-state); `ROLLBACK` branches return the
  pre-state unchanged and the `COMMIT` branch returns the state with the one
  inserted row.
-/

/-- A calendar date `⟨year, month, day⟩`, the embedding of a `YYYY-MM-DD`
TEXT value. -/
structure Ymd where
  y : Nat
  m : Nat
  d : Nat
deriving DecidableEq

/-- Lexicographic (calendar) order on dates, matching SQLite TEXT
comparison of zero-padded ISO dates. -/
def ymdLeb (a b : Ymd) : Bool :=
  decide (a.y < b.y) || (decide (a.y = b.y) &&
    (decide (a.m < b.m) || (decide (a.m = b.m) && decide (a.d ≤ b.d))))

/-- Strict lexicographic (calendar) order on dates. -/
def ymdLtb (a b : Ymd) : Bool :=
  decide (a.y < b.y) || (decide (a.y = b.y) &&
    (decide (a.m < b.m) || (decide (a.m = b.m) && decide (a.d < b.d))))

/-- Gregorian leap-year test (as used by JavaScript Date arithmetic). -/
def isLeap (y : Nat) : Bool :=
  (decide (y % 4 = 0) && !decide (y % 100 = 0)) || decide (y % 400 = 0)

/-- Days in a Gregorian month. -/
def daysInMonth (y m : Nat) : Nat :=
  if m = 2 then (if isLeap y then 29 else 28)
  else if m = 4 ∨ m = 6 ∨ m = 9 ∨ m = 11 then 30
  else 31

/-- Successor date: the embedding of JavaScript `setDate(getDate() + 1)`. -/
def nextDay (x : Ymd) : Ymd :=
  if x.d < daysInMonth x.y x.m then ⟨x.y, x.m, x.d + 1⟩
  else if x.m < 12 then ⟨x.y, x.m + 1, 1⟩
  else ⟨x.y + 1, 1, 1⟩

/-- `addDays x n` steps `n` days forward, the embedding of
`setDate(getDate() + n)`. -/
def addDays (x : Ymd) : Nat → Ymd
  | 0 => x
  | n + 1 => nextDay (addDays x n)

/-- `strftime(%Y-%m, ·)` equality: two dates lie in the same calendar
month. -/
def sameMonthb (a b : Ymd) : Bool :=
  decide (a.y = b.y) && decide (a.m = b.m)

/-- A row of the `submissions` table. -/
structure Submission where
  id : String
  submissionDate : String
  bookingDate : Ymd
  name : String
  upiNumber : String
  whatsappNumber : String
  ayambilShalaName : String
  city : String
  email : Option String
  status : String
  ipAddress : String
deriving DecidableEq

/-- The request payload `data` passed to `addSubmission` (its
`bookingDate` already normalised to a calendar date, as the code does with
`new Date(...).toISOString().split('T')[0]`). -/
structure SubmissionData where
  bookingDate : Ymd
  name : String
  upiNumber : String
  whatsappNumber : String
  ayambilShalaName : String
  city : String
  email : Option String
  ipAddress : String
deriving DecidableEq

/-- The database state: the three tables the admission engine touches. -/
structure Db where
  submissions : List Submission
  settings : List (String × String)
  calendar : List (Ymd × String)
deriving DecidableEq

/-- `SELECT value FROM settings WHERE key = ?` (first matching row). -/
def lookupSetting (settings : List (String × String)) (k : String) :
    Option String :=
  (settings.find? (fun r => decide (r.1 = k))).map (fun r => r.2)

/-- `getSetting(key, defaultValue)`: the stored value, or the default when
no row exists (an empty stored string is returned as is). -/
def getSettingD (settings : List (String × String)) (k dflt : String) :
    String :=
  (lookupSetting settings k).getD dflt

/-- JavaScript `v || dflt` on an optional string: the default replaces both
a missing value and the falsy empty string. -/
def jsOr (v : Option String) (dflt : String) : String :=
  match v with
  | none => dflt
  | some s => if s = "" then dflt else s

/-- JavaScript `parseInt(s, 10)` restricted to the digit strings the
settings store holds: the leading run of digits, `none` (NaN) when there is
none. -/
def jsToNat? (s : String) : Option Nat :=
  let ds := s.toList.takeWhile Char.isDigit
  if ds = [] then none
  else some (ds.foldl (fun a c => a * 10 + (c.toNat - 48)) 0)

/-- The limit `parseInt(settings[key] || dflt, 10)` resolved inside
`addSubmission` from the freshly read settings rows. -/
def resolveLimit (settings : List (String × String)) (k dflt : String) :
    Option Nat :=
  jsToNat? (jsOr (lookupSetting settings k) dflt)

/-- JavaScript `c >= limit` where the limit may be NaN (`none`): false at
NaN. -/
def jsGE (c : Nat) : Option Nat → Bool
  | none => false
  | some m => decide (m ≤ c)

/-- JavaScript `c < limit` where the limit may be NaN (`none`): false at
NaN. -/
def jsLT (c : Nat) : Option Nat → Bool
  | none => false
  | some m => decide (c < m)

/-- `SELECT status FROM calendar_availability WHERE date = ?`. -/
def calendarStatus (db : Db) (d : Ymd) : Option String :=
  ((db.calendar.find? (fun r => decide (r.1 = d))).map (fun r => r.2))

/-- `SELECT COUNT(*) FROM submissions WHERE date(bookingDate) = date(?)
AND status != 'archived'`. -/
def dailyCount (subs : List Submission) (d : Ymd) : Nat :=
  (subs.filter (fun s =>
    decide (s.bookingDate = d) && !decide (s.status = "archived"))).length

/-- `SELECT COUNT(*) FROM submissions WHERE strftime(%Y-%m, bookingDate) =
? AND (upiNumber = ? OR whatsappNumber = ?) AND status != 'archived' AND
status != 'rejected'`. -/
def monthlyCount (subs : List Submission) (d : Ymd) (upi wa : String) :
    Nat :=
  (subs.filter (fun s =>
    sameMonthb s.bookingDate d &&
    (decide (s.upiNumber = upi) || decide (s.whatsappNumber = wa)) &&
    !decide (s.status = "archived") && !decide (s.status = "rejected"))).length

/-- One constructor per `reject(new Error(...))` site of `addSubmission`. -/
inductive RejectKind where
  | DateNotOpen
  | MonthlyCapacityExceeded
  | DailyCapacityExceeded
deriving DecidableEq

/-- The message string each rejection site throws. -/
def rejectMessage (maxPerMonth : Option Nat) : RejectKind → String
  | .DateNotOpen => "This date is not available for booking yet"
  | .MonthlyCapacityExceeded =>
      "Monthly booking limit reached (" ++
        (match maxPerMonth with
         | some m => toString m
         | none => "NaN") ++ " bookings per month)"
  | .DailyCapacityExceeded => "Date is fully booked"

/-- `addSubmission(data)`: the serialized check-then-insert sequence run
inside `BEGIN EXCLUSIVE TRANSACTION`.  `now` is the wall-clock ISO
timestamp and `newId` the freshly generated submission id, both external
inputs.  Every rollback branch leaves the state untouched; the commit
branch appends exactly the inserted row. -/
def addSubmission (db : Db) (now newId : String) (data : SubmissionData) :
    Except RejectKind Submission × Db :=
  let b := data.bookingDate
  let maxBookingsPerDay := resolveLimit db.settings "max_bookings_per_day" "3"
  let maxBookingsPerMonth :=
    resolveLimit db.settings "max_bookings_per_month" "1000"
  if ¬ calendarStatus db b = some "open" then
    (.error .DateNotOpen, db)
  else if jsGE (monthlyCount db.submissions b data.upiNumber
      data.whatsappNumber) maxBookingsPerMonth then
    (.error .MonthlyCapacityExceeded, db)
  else if jsGE (dailyCount db.submissions b) maxBookingsPerDay then
    (.error .DailyCapacityExceeded, db)
  else
    let sub : Submission :=
      { id := newId, submissionDate := now, bookingDate := b,
        name := data.name, upiNumber := data.upiNumber,
        whatsappNumber := data.whatsappNumber,
        ayambilShalaName := data.ayambilShalaName, city := data.city,
        email := data.email, status := "pending",
        ipAddress := data.ipAddress }
    (.ok sub, { db with submissions := db.submissions ++ [sub] })

/-- `setSetting(key, value)`: `INSERT OR REPLACE INTO settings`. -/
def setSetting (db : Db) (k v : String) : Db :=
  { db with settings := db.settings.filter (fun r => !decide (r.1 = k)) ++ [(k, v)] }

/-- `setCalendarDateStatus(date, status)`: `INSERT OR REPLACE` of an open
row when the status is `open`, `DELETE` of the row otherwise. -/
def setCalendarDateStatus (db : Db) (d : Ymd) (status : String) : Db :=
  if status = "open" then
    { db with calendar :=
        db.calendar.filter (fun r => !decide (r.1 = d)) ++ [(d, "open")] }
  else
    { db with calendar := db.calendar.filter (fun r => !decide (r.1 = d)) }

/-- Ascending-date order on calendar rows, used only to state (and
refute) orderedness of query results. -/
def calRowLE (a b : Ymd × String) : Prop := ymdLeb a.1 b.1 = true

instance : DecidableRel calRowLE := fun a b => by
  unfold calRowLE; infer_instance

/-- `getCalendarSettings(startDate, endDate)`: `SELECT date, status FROM
calendar_availability WHERE date >= ? AND date <= ?`.  The query has no
`ORDER BY`, so the rows come back in whatever order the store yields them
(SQLite leaves it unspecified); the embedding keeps them in stored row
order. -/
def getCalendarSettings (db : Db) (startDate endDate : Ymd) :
    List (Ymd × String) :=
  db.calendar.filter (fun r => ymdLeb startDate r.1 && ymdLeb r.1 endDate)

/-- The object `isDateAvailable` returns.  `maxBookings` and `remaining`
may be NaN (`none`) when the stored per-day setting does not parse. -/
structure Availability where
  available : Bool
  count : Nat
  maxBookings : Option Nat
  remaining : Option Int
  status : String
deriving DecidableEq

/-- `isDateAvailable(date)`: closed dates answer a constant record without
touching the submissions table; open dates count non-archived submissions
and compare against the freshly read `max_bookings_per_day`. -/
def isDateAvailable (db : Db) (d : Ymd) : Availability :=
  if ¬ calendarStatus db d = some "open" then
    { available := false, count := 0, maxBookings := some 0,
      remaining := some 0, status := "closed" }
  else
    let count := dailyCount db.submissions d
    let maxBookings := jsToNat? (getSettingD db.settings "max_bookings_per_day" "3")
    { available := jsLT count maxBookings, count := count,
      maxBookings := maxBookings,
      remaining := maxBookings.map (fun m => (m : Int) - (count : Int)),
      status := "open" }

/-- The record `getNextAvailableDate` returns on success. -/
structure NextSlot where
  date : Ymd
  count : Nat
  remaining : Nat
deriving DecidableEq

/-- The day-by-day loop of `getNextAvailableDate`: `i` is the current loop
index, `fuel` the number of indices still to try (`maxDaysToSearch - i`).
A day is taken when it is in the prefetched open set and its count is
below the cap. -/
def scanNext (db : Db) (openSet : List Ymd) (maxBookings : Option Nat)
    (start : Ymd) : Nat → Nat → Option NextSlot
  | _, 0 => none
  | i, fuel + 1 =>
    let checkDate := addDays start i
    let count := dailyCount db.submissions checkDate
    if decide (checkDate ∈ openSet) && jsLT count maxBookings then
      some { date := checkDate, count := count,
             remaining := (maxBookings.getD 0) - count }
    else scanNext db openSet maxBookings start (i + 1) fuel

/-- `getNextAvailableDate(startDate, maxDaysToSearch)`: prefetches the open
dates of `[start, start + maxDaysToSearch]` in one range query, then scans
forward day by day. -/
def getNextAvailableDate (db : Db) (start : Ymd)
    (maxDaysToSearch : Nat := 90) : Option NextSlot :=
  let maxBookings := jsToNat? (getSettingD db.settings "max_bookings_per_day" "3")
  let endSearchDate := addDays start maxDaysToSearch
  let openSet :=
    (db.calendar.filter (fun r =>
      ymdLeb start r.1 && ymdLeb r.1 endSearchDate &&
      decide (r.2 = "open"))).map (fun r => r.1)
  scanNext db openSet maxBookings start 0 maxDaysToSearch

/-- The outcome of `validateBookingDate`, one constructor per return
object: past date, closed date, fully booked (with its advisory payload),
or valid. -/
inductive ValidationResult where
  | invalidPast
  | invalidClosed
  | invalidFull (currentCount : Nat) (maxBookings : Option Nat)
      (nextAvailableDate : Option NextSlot)
  | ok (count : Nat) (remaining : Option Int)
deriving DecidableEq

/-- `validateBookingDate(bookingDate)`: the past-date test runs first, at
day granularity, before any store is consulted; only then is availability
checked. -/
def validateBookingDate (db : Db) (today target : Ymd) : ValidationResult :=
  if ymdLtb target today then .invalidPast
  else
    let availability := isDateAvailable db target
    if availability.available then
      .ok availability.count availability.remaining
    else if availability.status = "closed" then .invalidClosed
    else
      .invalidFull availability.count availability.maxBookings
        (getNextAvailableDate db target)

/-- The HTTP-level outcome of the `createSubmission` controller: a 400
from validation, a created record, or the caught `addSubmission`
rejection. -/
inductive CreateOutcome where
  | badRequest (v : ValidationResult)
  | created (s : Submission)
  | serverError (k : RejectKind)
deriving DecidableEq

/-- The `createSubmission` controller flow: validate the booking date
first and answer 400 without entering `addSubmission` when invalid;
otherwise run the serialized `addSubmission` and translate its result. -/
def createSubmission (db : Db) (today : Ymd) (now newId : String)
    (data : SubmissionData) : CreateOutcome × Db :=
  match validateBookingDate db today data.bookingDate with
  | .invalidPast => (.badRequest .invalidPast, db)
  | .invalidClosed => (.badRequest .invalidClosed, db)
  | .invalidFull c mb nx => (.badRequest (.invalidFull c mb nx), db)
  | .ok _ _ =>
    match addSubmission db now newId data with
    | (.ok sub, db1) => (.created sub, db1)
    | (.error k, db1) => (.serverError k, db1)

/-- Runs a sequence of `addSubmission` calls (each with its own timestamp,
id and payload), threading the database state. -/
def reserveAll (db : Db) : List (String × String × SubmissionData) → Db
  | [] => db
  | r :: rs => reserveAll (addSubmission db r.1 r.2.1 r.2.2).2 rs

/-! ### Concrete fixture states used to instantiate the theorems -/

/-- A sample open booking date. -/
def exDate : Ymd := ⟨2026, 1, 10⟩

/-- A sample request payload (contact fields matching no fixture row). -/
def exData : SubmissionData :=
  ⟨exDate, "Name", "upi9", "wa9", "Shala", "City", none, ""⟩

/-- Builds a fixture submission row. -/
def exSub (i : String) (d : Ymd) (upi wa st : String) : Submission :=
  ⟨i, "2026-01-01T00:00:00.000Z", d, "Name", upi, wa, "Shala", "City",
    none, st, ""⟩

/-- Three pending bookings of `exDate` by three distinct identities. -/
def exSubs3 : List Submission :=
  [exSub "s1" exDate "u1" "w1" "pending",
   exSub "s2" exDate "u2" "w2" "pending",
   exSub "s3" exDate "u3" "w3" "pending"]

/-- Empty ledger, default settings, `exDate` open. -/
def exDbOpen : Db := ⟨[], [], [(exDate, "open")]⟩

/-- `exDate` open and already holding three pending bookings (full at the
default limit of 3). -/
def exDbFull : Db := ⟨exSubs3, [], [(exDate, "open")]⟩

/-- Three pending bookings of `exDate`, but no calendar row for it. -/
def exDbFullClosed : Db := ⟨exSubs3, [], []⟩

/-- One identity already booked on 2026-01-05, monthly limit set to 1,
2026-01-20 open. -/
def exDbMonth : Db :=
  ⟨[exSub "s1" ⟨2026, 1, 5⟩ "u1" "w1" "pending"],
   [("max_bookings_per_month", "1")], [(⟨2026, 1, 20⟩, "open")]⟩

/-- A calendar store holding two open dates, inserted out of date
order. -/
def exDbCal : Db :=
  ⟨[], [], [(⟨2026, 1, 12⟩, "open"), (⟨2026, 1, 5⟩, "open")]⟩

/-! ### Helper lemmas about the row-store primitives -/

theorem find?_filter_key_none {α β : Type} [DecidableEq α]
    (l : List (α × β)) (k : α) :
    List.find? (fun r => decide (r.1 = k))
      (l.filter (fun r => !decide (r.1 = k))) = none := by
  apply List.find?_eq_none.2
  intro x hx
  have hx2 := (List.mem_filter.1 hx).2
  simp only [Bool.not_eq_true'] at hx2
  simp [hx2]

theorem find?_filter_key_append {α β : Type} [DecidableEq α]
    (l : List (α × β)) (k : α) (v : β) :
    List.find? (fun r => decide (r.1 = k))
      (l.filter (fun r => !decide (r.1 = k)) ++ [(k, v)]) = some (k, v) := by
  rw [List.find?_append, find?_filter_key_none]
  simp [List.find?]

theorem find?_filter_key_ne {α β : Type} [DecidableEq α]
    (l : List (α × β)) (k k1 : α) (h : ¬ k1 = k) :
    List.find? (fun r => decide (r.1 = k1))
        (l.filter (fun r => !decide (r.1 = k))) =
      List.find? (fun r => decide (r.1 = k1)) l := by
  induction l with
  | nil => rfl
  | cons a l ih =>
    have hkk1 : ¬ k = k1 := fun hh => h hh.symm
    by_cases ha : a.1 = k
    · have hne : ¬ a.1 = k1 := fun hh => h (by rw [← hh, ha])
      simp [List.filter_cons, List.find?_cons, ha, hne, hkk1, ih]
    · by_cases ha1 : a.1 = k1 <;>
        simp [List.filter_cons, List.find?_cons, ha, ha1, h, hkk1, ih]

/-- A state-changing call of `addSubmission` touches only the submissions
table. -/
theorem addSubmission_settings_calendar (db : Db) (now newId : String)
    (data : SubmissionData) :
    (addSubmission db now newId data).2.settings = db.settings ∧
      (addSubmission db now newId data).2.calendar = db.calendar := by
  unfold addSubmission
  dsimp only
  split_ifs <;> exact ⟨rfl, rfl⟩

/-- Appending one row shifts a daily count by one exactly when the row is
a non-archived booking of that date. -/
theorem dailyCount_append (subs : List Submission) (s : Submission)
    (d : Ymd) :
    dailyCount (subs ++ [s]) d =
      dailyCount subs d +
        (if s.bookingDate = d ∧ ¬ s.status = "archived" then 1 else 0) := by
  unfold dailyCount
  rw [List.filter_append, List.length_append]
  by_cases h1 : s.bookingDate = d <;> by_cases h2 : s.status = "archived" <;>
    simp [h1, h2]

/-- The rejection branch of the monthly cap: open date, monthly count at
or above the parsed per-month limit. -/
theorem addSubmission_monthly_reject (db : Db) (now newId : String)
    (data : SubmissionData) (Mm : Nat)
    (hopen : calendarStatus db data.bookingDate = some "open")
    (hMm : resolveLimit db.settings "max_bookings_per_month" "1000" = some Mm)
    (hcnt : Mm ≤ monthlyCount db.submissions data.bookingDate
        data.upiNumber data.whatsappNumber) :
    addSubmission db now newId data =
      (.error .MonthlyCapacityExceeded, db) := by
  have hm : jsGE (monthlyCount db.submissions data.bookingDate
      data.upiNumber data.whatsappNumber)
      (resolveLimit db.settings "max_bookings_per_month" "1000") = true := by
    rw [hMm]; simp [jsGE, hcnt]
  unfold addSubmission
  simp [hopen, hm]

/-- The rejection branch of the daily cap: open date, monthly check
passing, daily count at or above the parsed per-day limit. -/
theorem addSubmission_daily_reject (db : Db) (now newId : String)
    (data : SubmissionData) (Md : Nat)
    (hopen : calendarStatus db data.bookingDate = some "open")
    (hmonth : jsGE (monthlyCount db.submissions data.bookingDate
        data.upiNumber data.whatsappNumber)
      (resolveLimit db.settings "max_bookings_per_month" "1000") = false)
    (hMd : resolveLimit db.settings "max_bookings_per_day" "3" = some Md)
    (hcnt : Md ≤ dailyCount db.submissions data.bookingDate) :
    addSubmission db now newId data = (.error .DailyCapacityExceeded, db) := by
  have hd : jsGE (dailyCount db.submissions data.bookingDate)
      (resolveLimit db.settings "max_bookings_per_day" "3") = true := by
    rw [hMd]; simp [jsGE, hcnt]
  unfold addSubmission
  simp [hopen, hmonth, hd]

/-- One `addSubmission` call preserves a daily bound that the parsed
per-day limit imposes. -/
theorem dailyCount_addSubmission_le (db : Db) (now newId : String)
    (data : SubmissionData) (d : Ymd) (Md : Nat)
    (hMd : resolveLimit db.settings "max_bookings_per_day" "3" = some Md)
    (hle : dailyCount db.submissions d ≤ Md) :
    dailyCount (addSubmission db now newId data).2.submissions d ≤ Md := by
  unfold addSubmission
  dsimp only
  split_ifs with h1 h2 h3 <;> try exact hle
  · rw [dailyCount_append]
    rw [hMd] at h3
    simp only [jsGE, decide_eq_true_eq] at h3
    split_ifs with hcond
    · have hb : data.bookingDate = d := hcond.1
      rw [hb] at h3
      omega
    · omega

/-- A daily bound survives any sequence of `addSubmission` calls. -/
theorem dailyCount_reserveAll_le (d : Ymd) (Md : Nat) :
    ∀ (reqs : List (String × String × SubmissionData)) (db : Db),
      resolveLimit db.settings "max_bookings_per_day" "3" = some Md →
      dailyCount db.submissions d ≤ Md →
      dailyCount (reserveAll db reqs).submissions d ≤ Md := by
  intro reqs
  induction reqs with
  | nil => intro db _ hle; exact hle
  | cons r rs ih =>
    intro db hMd hle
    unfold reserveAll
    apply ih
    · rw [(addSubmission_settings_calendar db r.1 r.2.1 r.2.2).1]
      exact hMd
    · exact dailyCount_addSubmission_le db r.1 r.2.1 r.2.2 d Md hMd hle

/-! ### Claim theorems -/

/-- C1 (counterexample to the claim as stated): with the default per-day
limit 3 and three non-archived submissions already booked on `exDate`, a
reserve call for `exDate` does NOT reject with `DailyCapacityExceeded`
when the date has no open calendar row — the calendar gate fires first and
the call rejects with `DateNotOpen`. -/
theorem dailyCapacity_counterexample :
    resolveLimit exDbFullClosed.settings "max_bookings_per_day" "3" =
        some 3 ∧
      dailyCount exDbFullClosed.submissions exData.bookingDate = 3 ∧
      addSubmission exDbFullClosed "t" "i" exData =
        (.error .DateNotOpen, exDbFullClosed) ∧
      RejectKind.DateNotOpen ≠ RejectKind.DailyCapacityExceeded :=
  ⟨rfl, rfl, rfl, by decide⟩

/-- C1 (amended): when `reserve` (addSubmission) is invoked for a date `d`
that is open in the calendar and whose monthly check passes, and the
non-archived submission count for `d` is at least the parsed `maxPerDay`,
the call rejects with `DailyCapacityExceeded` and inserts nothing; and
starting from any state whose non-archived count for `d` is at most
`maxPerDay`, the count for `d` stays at most `maxPerDay` after any
sequence of reserve calls. -/
theorem dailyCapacity_amended :
    (∀ (db : Db) (now newId : String) (data : SubmissionData) (Md : Nat),
        calendarStatus db data.bookingDate = some "open" →
        jsGE (monthlyCount db.submissions data.bookingDate data.upiNumber
            data.whatsappNumber)
          (resolveLimit db.settings "max_bookings_per_month" "1000") =
            false →
        resolveLimit db.settings "max_bookings_per_day" "3" = some Md →
        Md ≤ dailyCount db.submissions data.bookingDate →
        addSubmission db now newId data =
          (.error .DailyCapacityExceeded, db)) ∧
    (∀ (db : Db) (d : Ymd) (Md : Nat)
        (reqs : List (String × String × SubmissionData)),
        resolveLimit db.settings "max_bookings_per_day" "3" = some Md →
        dailyCount db.submissions d ≤ Md →
        dailyCount (reserveAll db reqs).submissions d ≤ Md) :=
  ⟨fun db now newId data Md h1 h2 h3 h4 =>
      addSubmission_daily_reject db now newId data Md h1 h2 h3 h4,
   fun db d Md reqs h1 h2 => dailyCount_reserveAll_le d Md reqs db h1 h2⟩

/-- C1 witness: the full open date rejects with `DailyCapacityExceeded`,
and four reserve attempts against an initially empty open date leave its
count at most 3. -/
theorem dailyCapacity_amended_witness :
    addSubmission exDbFull "t" "i" exData =
        (.error .DailyCapacityExceeded, exDbFull) ∧
      dailyCount (reserveAll exDbOpen
        [("t", "i1", exData), ("t", "i2", exData), ("t", "i3", exData),
         ("t", "i4", exData)]).submissions exDate ≤ 3 :=
  ⟨dailyCapacity_amended.1 exDbFull "t" "i" exData 3 (by decide) rfl rfl
      (by decide),
   dailyCapacity_amended.2 exDbOpen exDate 3
      [("t", "i1", exData), ("t", "i2", exData), ("t", "i3", exData),
       ("t", "i4", exData)] rfl (by decide)⟩

/-- C2: if the requesting identity already holds at least `maxPerMonth`
non-archived, non-rejected submissions inside the calendar month of the
(open) booking date, `reserve` rejects with `MonthlyCapacityExceeded` and
leaves the state unchanged — for any open date of that month, also one
different from the earlier bookings. -/
theorem monthlyCapacity_reject (db : Db) (now newId : String)
    (data : SubmissionData) (Mm : Nat)
    (hopen : calendarStatus db data.bookingDate = some "open")
    (hMm : resolveLimit db.settings "max_bookings_per_month" "1000" =
      some Mm)
    (hcnt : Mm ≤ monthlyCount db.submissions data.bookingDate
        data.upiNumber data.whatsappNumber) :
    addSubmission db now newId data =
      (.error .MonthlyCapacityExceeded, db) :=
  addSubmission_monthly_reject db now newId data Mm hopen hMm hcnt

/-- C2 witness: with `maxPerMonth = 1` and one pending booking of
2026-01-05 by identity (u1, w1), a reservation by the same upi for the
different open date 2026-01-20 rejects with `MonthlyCapacityExceeded`. -/
theorem monthlyCapacity_reject_witness :
    addSubmission exDbMonth "t" "i"
        ⟨⟨2026, 1, 20⟩, "Name", "u1", "waX", "Shala", "City", none, ""⟩ =
      (.error .MonthlyCapacityExceeded, exDbMonth) :=
  monthlyCapacity_reject exDbMonth "t" "i"
    ⟨⟨2026, 1, 20⟩, "Name", "u1", "waX", "Shala", "City", none, ""⟩ 1
    (by decide) rfl (by decide)

/-- C3: when the calendar store has no row for the booking date, or a row
whose status is not `open`, `reserve` returns `DateNotOpen` and inserts
nothing, whatever the current daily or monthly counts and settings are. -/
theorem gate_dateNotOpen (db : Db) (now newId : String)
    (data : SubmissionData)
    (h : ¬ calendarStatus db data.bookingDate = some "open") :
    addSubmission db now newId data = (.error .DateNotOpen, db) := by
  unfold addSubmission
  simp [h]

/-- C3 witness: the full-but-closed fixture state rejects with
`DateNotOpen` even though counts are at the cap. -/
theorem gate_dateNotOpen_witness :
    addSubmission exDbFullClosed "t" "i" exData =
      (.error .DateNotOpen, exDbFullClosed) :=
  gate_dateNotOpen exDbFullClosed "t" "i" exData (by decide)

/-- C4: `addSubmission` is atomic — every rejection leaves the database
exactly as it was, and a success appends exactly the one returned row
(and touches nothing else), so a new row exists after the call if and
only if the call succeeded. -/
theorem reserve_atomic (db : Db) (now newId : String)
    (data : SubmissionData) :
    (∀ k : RejectKind, (addSubmission db now newId data).1 = .error k →
        (addSubmission db now newId data).2 = db) ∧
    (∀ s : Submission, (addSubmission db now newId data).1 = .ok s →
        (addSubmission db now newId data).2 =
          { db with submissions := db.submissions ++ [s] }) := by
  unfold addSubmission
  dsimp only
  split_ifs with h1 h2 h3 <;>
    refine ⟨fun k hk => ?_, fun s hs => ?_⟩ <;>
    first
      | rfl
      | rw [← Except.ok.inj hs]
      | exact absurd hs (by simp)
      | exact absurd hk (by simp)

/-- C4 witness: a rejected call leaves the fixture state unchanged, and a
successful call appends exactly the accepted row. -/
theorem reserve_atomic_witness :
    (addSubmission exDbFull "t" "i" exData).2 = exDbFull ∧
      (addSubmission exDbOpen "t" "i" exData).2 =
        { exDbOpen with
            submissions := exDbOpen.submissions ++
              [⟨"i", "t", exDate, "Name", "upi9", "wa9", "Shala", "City",
                none, "pending", ""⟩] } :=
  ⟨(reserve_atomic exDbFull "t" "i" exData).1 .DailyCapacityExceeded rfl,
   (reserve_atomic exDbOpen "t" "i" exData).2
     ⟨"i", "t", exDate, "Name", "upi9", "wa9", "Shala", "City", none,
       "pending", ""⟩ rfl⟩

/-- C5: a reserve request whose booking date precedes the current date
(day granularity) is turned away by the controller with the past-date
validation failure, before `addSubmission` — the serialized
check-and-insert section — is entered: the answer is independent of the
calendar, settings and counts, and the state is unchanged. -/
theorem pastDate_rejected_early (db : Db) (today : Ymd)
    (now newId : String) (data : SubmissionData)
    (h : ymdLtb data.bookingDate today = true) :
    createSubmission db today now newId data =
      (.badRequest .invalidPast, db) := by
  unfold createSubmission validateBookingDate
  simp [h]

/-- C5 witness: booking 2026-01-09 when today is 2026-01-10 is rejected
as a past date on the full fixture state, which stays unchanged. -/
theorem pastDate_rejected_early_witness :
    createSubmission exDbFull ⟨2026, 1, 10⟩ "t" "i"
        ⟨⟨2026, 1, 9⟩, "Name", "u", "w", "Shala", "City", none, ""⟩ =
      (.badRequest .invalidPast, exDbFull) :=
  pastDate_rejected_early exDbFull ⟨2026, 1, 10⟩ "t" "i"
    ⟨⟨2026, 1, 9⟩, "Name", "u", "w", "Shala", "City", none, ""⟩ (by decide)

/-- C7: `isDateAvailable` answers the constant closed record (false, 0,
0, 0, closed) for a date without an open calendar row — the constant
result in particular shows the submission ledger is not consulted — and
for an open date, when the per-day setting parses to `M`, it answers the
non-archived count, max `M`, remaining `M - count`, status open, with
`available` true exactly when the count is below `M`. -/
theorem availability_correct (db : Db) (d : Ymd) :
    (¬ calendarStatus db d = some "open" →
        isDateAvailable db d =
          { available := false, count := 0, maxBookings := some 0,
            remaining := some 0, status := "closed" }) ∧
    (∀ M : Nat, calendarStatus db d = some "open" →
        jsToNat? (getSettingD db.settings "max_bookings_per_day" "3") =
          some M →
        isDateAvailable db d =
          { available := decide (dailyCount db.submissions d < M),
            count := dailyCount db.submissions d, maxBookings := some M,
            remaining :=
              some ((M : Int) - (dailyCount db.submissions d : Int)),
            status := "open" }) := by
  constructor
  · intro h
    unfold isDateAvailable
    simp [h]
  · intro M hopen hM
    unfold isDateAvailable
    simp [hopen, hM, jsLT]

/-- C7 witness: the closed empty state answers the closed constant; the
full open fixture answers count 3 of max 3, remaining 0, not
available. -/
theorem availability_correct_witness :
    isDateAvailable ⟨exSubs3, [], []⟩ exDate =
        { available := false, count := 0, maxBookings := some 0,
          remaining := some 0, status := "closed" } ∧
      isDateAvailable exDbFull exDate =
        { available := decide ((3 : Nat) < 3), count := 3,
          maxBookings := some 3, remaining := some ((3 : Int) - (3 : Int)),
          status := "open" } :=
  ⟨(availability_correct ⟨exSubs3, [], []⟩ exDate).1 (by decide),
   (availability_correct exDbFull exDate).2 3 (by decide) rfl⟩

/-- C9: the effective limits are resolved from the settings rows read at
the call, with defaults 3 per day and 1000 per month when the key is
unset; an updated setting value is what the very next resolution — hence
the next reserve call — sees, shown both on the resolver and on the
admission decision itself. -/
theorem limits_fresh_defaults :
    (∀ settings : List (String × String),
        lookupSetting settings "max_bookings_per_day" = none →
        resolveLimit settings "max_bookings_per_day" "3" = some 3) ∧
    (∀ settings : List (String × String),
        lookupSetting settings "max_bookings_per_month" = none →
        resolveLimit settings "max_bookings_per_month" "1000" =
          some 1000) ∧
    (∀ (db : Db) (k v dflt : String), ¬ v = "" →
        resolveLimit (setSetting db k v).settings k dflt = jsToNat? v) ∧
    (∀ (db : Db) (v now newId : String) (data : SubmissionData) (N : Nat),
        ¬ v = "" → jsToNat? v = some N →
        calendarStatus (setSetting db "max_bookings_per_day" v)
            data.bookingDate = some "open" →
        jsGE (monthlyCount db.submissions data.bookingDate data.upiNumber
            data.whatsappNumber)
          (resolveLimit (setSetting db "max_bookings_per_day" v).settings
            "max_bookings_per_month" "1000") = false →
        N ≤ dailyCount db.submissions data.bookingDate →
        addSubmission (setSetting db "max_bookings_per_day" v) now newId
            data =
          (.error .DailyCapacityExceeded,
            setSetting db "max_bookings_per_day" v)) := by
  have hself : ∀ (db : Db) (k v dflt : String), ¬ v = "" →
      resolveLimit (setSetting db k v).settings k dflt = jsToNat? v := by
    intro db k v dflt hv
    have hl : lookupSetting (setSetting db k v).settings k = some v := by
      unfold lookupSetting setSetting
      rw [find?_filter_key_append]
      rfl
    unfold resolveLimit
    rw [hl]
    simp [jsOr, hv]
  refine ⟨?_, ?_, hself, ?_⟩
  · intro s h
    unfold resolveLimit
    rw [h]
    rfl
  · intro s h
    unfold resolveLimit
    rw [h]
    rfl
  · intro db v now newId data N hv hN hopen hmonth hcnt
    exact addSubmission_daily_reject _ now newId data N hopen hmonth
      (by rw [hself db "max_bookings_per_day" v "3" hv, hN]) hcnt

/-- C9 witness: on the empty settings store both defaults resolve; after
setting the per-day limit to 2 on the full open fixture, the next reserve
call rejects on the daily cap at the new limit. -/
theorem limits_fresh_defaults_witness :
    resolveLimit [] "max_bookings_per_day" "3" = some 3 ∧
      resolveLimit [] "max_bookings_per_month" "1000" = some 1000 ∧
      resolveLimit
          (setSetting exDbFull "max_bookings_per_day" "2").settings
          "max_bookings_per_day" "3" = jsToNat? "2" ∧
      addSubmission (setSetting exDbFull "max_bookings_per_day" "2") "t"
          "i" exData =
        (.error .DailyCapacityExceeded,
          setSetting exDbFull "max_bookings_per_day" "2") :=
  ⟨limits_fresh_defaults.1 [] rfl,
   limits_fresh_defaults.2.1 [] rfl,
   limits_fresh_defaults.2.2.1 exDbFull "max_bookings_per_day" "2" "3"
     (by decide),
   limits_fresh_defaults.2.2.2 exDbFull "2" "t" "i" exData 2 (by decide)
     rfl (by decide) rfl (by decide)⟩

/-- C10 (implicit): the monthly-cap identity match is the disjunction
over the two contact fields, so with `maxPerMonth = 1` a single existing
in-month submission simultaneously exhausts the quota of a request
matching only its upi number and of a request matching only its whatsapp
number (both on any open date of the month). -/
theorem monthly_identity_disjunction (db : Db) (now newId : String)
    (s : Submission) (r1 r2 : SubmissionData)
    (hmem : s ∈ db.submissions)
    (hm1 : sameMonthb s.bookingDate r1.bookingDate = true)
    (hm2 : sameMonthb s.bookingDate r2.bookingDate = true)
    (hst1 : ¬ s.status = "archived") (hst2 : ¬ s.status = "rejected")
    (hM : resolveLimit db.settings "max_bookings_per_month" "1000" =
      some 1)
    (hopen1 : calendarStatus db r1.bookingDate = some "open")
    (hopen2 : calendarStatus db r2.bookingDate = some "open")
    (hu : r1.upiNumber = s.upiNumber)
    (hw : r2.whatsappNumber = s.whatsappNumber) :
    addSubmission db now newId r1 =
        (.error .MonthlyCapacityExceeded, db) ∧
      addSubmission db now newId r2 =
        (.error .MonthlyCapacityExceeded, db) := by
  constructor
  · apply addSubmission_monthly_reject db now newId r1 1 hopen1 hM
    have hmemf : s ∈ db.submissions.filter (fun t =>
        sameMonthb t.bookingDate r1.bookingDate &&
        (decide (t.upiNumber = r1.upiNumber) ||
          decide (t.whatsappNumber = r1.whatsappNumber)) &&
        !decide (t.status = "archived") &&
        !decide (t.status = "rejected")) :=
      List.mem_filter.2 ⟨hmem, by simp [hm1, hu.symm, hst1, hst2]⟩
    exact List.length_pos_of_mem hmemf
  · apply addSubmission_monthly_reject db now newId r2 1 hopen2 hM
    have hmemf : s ∈ db.submissions.filter (fun t =>
        sameMonthb t.bookingDate r2.bookingDate &&
        (decide (t.upiNumber = r2.upiNumber) ||
          decide (t.whatsappNumber = r2.whatsappNumber)) &&
        !decide (t.status = "archived") &&
        !decide (t.status = "rejected")) :=
      List.mem_filter.2 ⟨hmem, by simp [hm2, hw.symm, hst1, hst2]⟩
    exact List.length_pos_of_mem hmemf

/-- C10 witness: the single (u1, w1) booking of 2026-01-05 blocks, under
`maxPerMonth = 1`, both a request by (u1, waX) and a request by
(uX, w1) for the open date 2026-01-20. -/
theorem monthly_identity_disjunction_witness :
    addSubmission exDbMonth "t" "i"
        ⟨⟨2026, 1, 20⟩, "Name", "u1", "waX", "Shala", "City", none, ""⟩ =
        (.error .MonthlyCapacityExceeded, exDbMonth) ∧
      addSubmission exDbMonth "t" "i"
          ⟨⟨2026, 1, 20⟩, "Name", "uX", "w1", "Shala", "City", none, ""⟩ =
        (.error .MonthlyCapacityExceeded, exDbMonth) :=
  monthly_identity_disjunction exDbMonth "t" "i"
    (exSub "s1" ⟨2026, 1, 5⟩ "u1" "w1" "pending")
    ⟨⟨2026, 1, 20⟩, "Name", "u1", "waX", "Shala", "City", none, ""⟩
    ⟨⟨2026, 1, 20⟩, "Name", "uX", "w1", "Shala", "City", none, ""⟩
    (by decide) (by decide) (by decide) (by decide) (by decide) rfl
    (by decide) (by decide) rfl rfl

/-! ### Date-order lemmas -/

theorem ymdLeb_eq_true_iff (a b : Ymd) :
    ymdLeb a b = true ↔
      (a.y < b.y ∨ (a.y = b.y ∧ (a.m < b.m ∨ (a.m = b.m ∧ a.d ≤ b.d)))) := by
  unfold ymdLeb
  simp only [Bool.or_eq_true, Bool.and_eq_true, decide_eq_true_eq]

theorem ymdLtb_eq_true_iff (a b : Ymd) :
    ymdLtb a b = true ↔
      (a.y < b.y ∨ (a.y = b.y ∧ (a.m < b.m ∨ (a.m = b.m ∧ a.d < b.d)))) := by
  unfold ymdLtb
  simp only [Bool.or_eq_true, Bool.and_eq_true, decide_eq_true_eq]

theorem ymdLeb_refl (a : Ymd) : ymdLeb a a = true := by
  rw [ymdLeb_eq_true_iff]; omega

theorem ymdLeb_trans (a b c : Ymd) (h1 : ymdLeb a b = true)
    (h2 : ymdLeb b c = true) : ymdLeb a c = true := by
  rw [ymdLeb_eq_true_iff] at h1 h2 ⊢; omega

theorem ymdLtb_to_leb (a b : Ymd) (h : ymdLtb a b = true) :
    ymdLeb a b = true := by
  rw [ymdLtb_eq_true_iff] at h; rw [ymdLeb_eq_true_iff]; omega

/-- Stepping one day forward strictly increases the calendar order. -/
theorem ymdLtb_nextDay (x : Ymd) : ymdLtb x (nextDay x) = true := by
  unfold nextDay
  split_ifs with h1 h2 <;> (rw [ymdLtb_eq_true_iff]; dsimp only; omega)

/-- Day stepping is monotone in the number of steps. -/
theorem ymdLeb_addDays (x : Ymd) (j k : Nat) (h : j ≤ k) :
    ymdLeb (addDays x j) (addDays x k) = true := by
  induction k with
  | zero =>
    have hj : j = 0 := Nat.le_zero.1 h
    rw [hj]; exact ymdLeb_refl _
  | succ k ih =>
    rcases Nat.eq_or_lt_of_le h with he | hl
    · rw [he]; exact ymdLeb_refl _
    · have hj : j ≤ k := Nat.lt_succ_iff.1 hl
      exact ymdLeb_trans _ _ _ (ih hj)
        (ymdLtb_to_leb _ _ (ymdLtb_nextDay (addDays x k)))

theorem ymdLeb_self_addDays (x : Ymd) (j : Nat) :
    ymdLeb x (addDays x j) = true :=
  ymdLeb_addDays x 0 j (Nat.zero_le j)

/-- In a keyed row list with no duplicate keys, `find?` on a present
row's key returns exactly that row. -/
theorem find?_key_of_mem {α β : Type} [DecidableEq α] (l : List (α × β))
    (hnd : (l.map Prod.fst).Nodup) (r : α × β) (hr : r ∈ l) :
    List.find? (fun t => decide (t.1 = r.1)) l = some r := by
  induction l with
  | nil => cases hr
  | cons a l ih =>
    rw [List.map_cons, List.nodup_cons] at hnd
    rcases List.mem_cons.1 hr with he | hm
    · rw [he]
      simp [List.find?_cons]
    · have hane : ¬ a.1 = r.1 := by
        intro hh
        exact hnd.1 (hh ▸ List.mem_map_of_mem Prod.fst hm)
      simp only [List.find?_cons, hane, decide_False]
      exact ih hnd.2 hm

/-- C8 (counterexample to the claim as stated): `getCalendarSettings`
does not return an ordered sequence.  Opening 2026-01-12, then
2026-01-05, then 2026-01-20 through `setCalendarDateStatus` itself, the
range query answers the rows in stored order — the second date precedes
the first and the third follows them both, so the result is sorted by
date in neither direction (the source `SELECT` has no `ORDER BY`). -/
theorem calendar_range_unordered_counterexample :
    getCalendarSettings
        (setCalendarDateStatus (setCalendarDateStatus
          (setCalendarDateStatus ⟨[], [], []⟩ ⟨2026, 1, 12⟩ "open")
          ⟨2026, 1, 5⟩ "open") ⟨2026, 1, 20⟩ "open")
        ⟨2026, 1, 1⟩ ⟨2026, 1, 31⟩ =
      [(⟨2026, 1, 12⟩, "open"), (⟨2026, 1, 5⟩, "open"),
        (⟨2026, 1, 20⟩, "open")] ∧
    ¬ List.Sorted calRowLE
        [((⟨2026, 1, 12⟩ : Ymd), "open"), (⟨2026, 1, 5⟩, "open"),
          (⟨2026, 1, 20⟩, "open")] ∧
    ymdLtb ⟨2026, 1, 5⟩ ⟨2026, 1, 12⟩ = true ∧
    ymdLtb ⟨2026, 1, 5⟩ ⟨2026, 1, 20⟩ = true :=
  ⟨rfl, by decide, rfl, rfl⟩

/-- C8 (amended): `setCalendarDateStatus` upserts an open row when told
`open` (leaving every other date's status alone), deletes the date's row
for any other status, and preserves the all-rows-open store invariant;
and `getCalendarSettings` returns exactly the stored rows of the range —
in unspecified order, since the query has no `ORDER BY` — all of them
explicitly open whenever the store invariant holds. -/
theorem calendar_ops_correct :
    (∀ (db : Db) (d : Ymd),
        calendarStatus (setCalendarDateStatus db d "open") d =
          some "open") ∧
    (∀ (db : Db) (d : Ymd) (st : String) (d1 : Ymd), ¬ d1 = d →
        calendarStatus (setCalendarDateStatus db d st) d1 =
          calendarStatus db d1) ∧
    (∀ (db : Db) (d : Ymd) (st : String), ¬ st = "open" →
        calendarStatus (setCalendarDateStatus db d st) d = none) ∧
    (∀ (db : Db) (d : Ymd) (st : String),
        (∀ p ∈ db.calendar, p.2 = "open") →
        ∀ p ∈ (setCalendarDateStatus db d st).calendar, p.2 = "open") ∧
    (∀ (db : Db) (s e : Ymd) (p : Ymd × String),
        p ∈ getCalendarSettings db s e ↔
          (p ∈ db.calendar ∧ ymdLeb s p.1 = true ∧
            ymdLeb p.1 e = true)) ∧
    (∀ (db : Db) (s e : Ymd), (∀ p ∈ db.calendar, p.2 = "open") →
        ∀ p ∈ getCalendarSettings db s e, p.2 = "open") := by
  have hmem : ∀ (db : Db) (s e : Ymd) (p : Ymd × String),
      p ∈ getCalendarSettings db s e ↔
        (p ∈ db.calendar ∧ ymdLeb s p.1 = true ∧ ymdLeb p.1 e = true) := by
    intro db s e p
    unfold getCalendarSettings
    rw [List.mem_filter]
    simp only [Bool.and_eq_true, and_assoc]
  refine ⟨?_, ?_, ?_, ?_, hmem, ?_⟩
  · intro db d
    unfold setCalendarDateStatus
    rw [if_pos rfl]
    unfold calendarStatus
    dsimp only
    rw [find?_filter_key_append]
    rfl
  · intro db d st d1 h
    have hd : ¬ d = d1 := fun hh => h hh.symm
    unfold setCalendarDateStatus calendarStatus
    split_ifs with hst
    · dsimp only
      rw [List.find?_append, find?_filter_key_ne db.calendar d d1 h]
      cases hfind : List.find? (fun r => decide (r.1 = d1)) db.calendar <;>
        simp [hfind, List.find?, hd]
    · dsimp only
      rw [find?_filter_key_ne db.calendar d d1 h]
  · intro db d st h
    unfold setCalendarDateStatus calendarStatus
    rw [if_neg h]
    dsimp only
    rw [find?_filter_key_none]
    rfl
  · intro db d st hall p hp
    unfold setCalendarDateStatus at hp
    split_ifs at hp with hst
    · dsimp only at hp
      rcases List.mem_append.1 hp with h1 | h2
      · exact hall p (List.mem_filter.1 h1).1
      · have hpe : p = (d, "open") := by simpa using h2
        rw [hpe]
    · exact hall p (List.mem_filter.1 hp).1
  · intro db s e hall p hp
    exact hall p ((hmem db s e p).1 hp).1

/-- C8 witness: on the two-date fixture store, opening 2026-01-07 makes
it open, closing 2026-01-05 removes it, membership in the range result
matches the store, and a returned row is open. -/
theorem calendar_ops_correct_witness :
    calendarStatus (setCalendarDateStatus exDbCal ⟨2026, 1, 7⟩ "open")
        ⟨2026, 1, 7⟩ = some "open" ∧
      calendarStatus (setCalendarDateStatus exDbCal ⟨2026, 1, 5⟩ "closed")
        ⟨2026, 1, 5⟩ = none ∧
      ((⟨2026, 1, 5⟩, "open") ∈
          getCalendarSettings exDbCal ⟨2026, 1, 1⟩ ⟨2026, 1, 31⟩ ↔
        ((⟨2026, 1, 5⟩, "open") ∈ exDbCal.calendar ∧
          ymdLeb ⟨2026, 1, 1⟩ ⟨2026, 1, 5⟩ = true ∧
          ymdLeb ⟨2026, 1, 5⟩ ⟨2026, 1, 31⟩ = true)) ∧
      ((⟨2026, 1, 5⟩, "open") : Ymd × String).2 = "open" :=
  ⟨calendar_ops_correct.1 exDbCal ⟨2026, 1, 7⟩,
   calendar_ops_correct.2.2.1 exDbCal ⟨2026, 1, 5⟩ "closed" (by decide),
   calendar_ops_correct.2.2.2.2.1 exDbCal ⟨2026, 1, 1⟩ ⟨2026, 1, 31⟩
     (⟨2026, 1, 5⟩, "open"),
   calendar_ops_correct.2.2.2.2.2 exDbCal ⟨2026, 1, 1⟩ ⟨2026, 1, 31⟩
     (by decide) (⟨2026, 1, 5⟩, "open") (by decide)⟩

/-- Membership in the prefetched open-date set of `getNextAvailableDate`,
characterised through `calendarStatus` (no duplicate dates, as the `date`
PRIMARY KEY guarantees). -/
theorem mem_openDates_iff (db : Db) (lo hi : Ymd)
    (hnd : (db.calendar.map Prod.fst).Nodup) (d : Ymd) :
    d ∈ (db.calendar.filter (fun r =>
        ymdLeb lo r.1 && ymdLeb r.1 hi && decide (r.2 = "open"))).map
        Prod.fst ↔
      (calendarStatus db d = some "open" ∧ ymdLeb lo d = true ∧
        ymdLeb d hi = true) := by
  constructor
  · intro h
    rcases List.mem_map.1 h with ⟨r, hrf, hre⟩
    rcases List.mem_filter.1 hrf with ⟨hrl, hcond⟩
    simp only [Bool.and_eq_true, decide_eq_true_eq] at hcond
    subst hre
    refine ⟨?_, hcond.1.1, hcond.1.2⟩
    unfold calendarStatus
    rw [find?_key_of_mem db.calendar hnd r hrl, Option.map_some']
    rw [hcond.2]
  · intro h
    obtain ⟨hst, h1, h2⟩ := h
    unfold calendarStatus at hst
    cases hfind : List.find? (fun r => decide (r.1 = d)) db.calendar with
    | none => rw [hfind] at hst; cases hst
    | some r =>
      rw [hfind, Option.map_some'] at hst
      have hr2 : r.2 = "open" := Option.some.inj hst
      have hrd : r.1 = d := by
        have := List.find?_some hfind
        simpa using this
      have hrl : r ∈ db.calendar := List.mem_of_find?_eq_some hfind
      exact List.mem_map.2 ⟨r,
        List.mem_filter.2 ⟨hrl, by simp [hrd, h1, h2, hr2]⟩, hrd⟩

/-- Soundness of the forward scan of `getNextAvailableDate`: a returned
slot is the first loop index whose date is in the open set with its count
below the cap, and it carries that date, count and remaining capacity. -/
theorem scanNext_sound (db : Db) (openSet : List Ymd)
    (maxB : Option Nat) (start : Ymd) :
    ∀ (fuel i : Nat) (slot : NextSlot),
      scanNext db openSet maxB start i fuel = some slot →
      ∃ k, i ≤ k ∧ k < i + fuel ∧ slot.date = addDays start k ∧
        addDays start k ∈ openSet ∧
        jsLT (dailyCount db.submissions (addDays start k)) maxB = true ∧
        slot.count = dailyCount db.submissions (addDays start k) ∧
        slot.remaining = maxB.getD 0 - slot.count ∧
        (∀ j, i ≤ j → j < k →
          ¬(addDays start j ∈ openSet ∧
            jsLT (dailyCount db.submissions (addDays start j)) maxB =
              true)) := by
  intro fuel
  induction fuel with
  | zero => intro i slot h; cases h
  | succ fuel ih =>
    intro i slot h
    unfold scanNext at h
    dsimp only at h
    by_cases hc : (decide (addDays start i ∈ openSet) &&
        jsLT (dailyCount db.submissions (addDays start i)) maxB) = true
    · rw [if_pos hc] at h
      have hs := Option.some.inj h
      simp only [Bool.and_eq_true, decide_eq_true_eq] at hc
      refine ⟨i, Nat.le_refl i, by omega, ?_, hc.1, hc.2, ?_, ?_, ?_⟩
      · rw [← hs]
      · rw [← hs]
      · rw [← hs]
      · intro j hj1 hj2
        omega
    · rw [if_neg hc] at h
      obtain ⟨k, hk1, hk2, hdate, hmem, hlt, hcount, hrem, hmin⟩ :=
        ih (i + 1) slot h
      refine ⟨k, by omega, by omega, hdate, hmem, hlt, hcount, hrem, ?_⟩
      intro j hj1 hj2
      by_cases hji : j = i
      · subst hji
        intro hcontra
        exact hc (by simp [hcontra.1, hcontra.2])
      · exact hmin j (by omega) hj2

/-- C6: when `getNextAvailableDate` returns a slot, the per-day setting
parses to some `M`, the slot's date lies within the search window, is
explicitly open, its non-archived count is the reported count, strictly
below `M`, `remaining = M - count`, and no strictly earlier day of the
window is both open and below capacity; and it returns none whenever
every day of the window is closed or at capacity. -/
theorem nextSlot_correct (db : Db) (start : Ymd) (h : Nat)
    (hnd : (db.calendar.map Prod.fst).Nodup) :
    (∀ slot : NextSlot, getNextAvailableDate db start h = some slot →
        ∃ M k : Nat,
          jsToNat? (getSettingD db.settings "max_bookings_per_day" "3") =
              some M ∧
            k < h ∧ slot.date = addDays start k ∧
            calendarStatus db slot.date = some "open" ∧
            slot.count = dailyCount db.submissions slot.date ∧
            slot.count < M ∧ slot.remaining = M - slot.count ∧
            (∀ j, j < k →
              ¬(calendarStatus db (addDays start j) = some "open" ∧
                dailyCount db.submissions (addDays start j) < M))) ∧
    (∀ M : Nat,
        jsToNat? (getSettingD db.settings "max_bookings_per_day" "3") =
          some M →
        (∀ j, j ≤ h →
          ¬ calendarStatus db (addDays start j) = some "open" ∨
            M ≤ dailyCount db.submissions (addDays start j)) →
        getNextAvailableDate db start h = none) := by
  have h1 : ∀ slot : NextSlot, getNextAvailableDate db start h = some slot →
      ∃ M k : Nat,
        jsToNat? (getSettingD db.settings "max_bookings_per_day" "3") =
            some M ∧
          k < h ∧ slot.date = addDays start k ∧
          calendarStatus db slot.date = some "open" ∧
          slot.count = dailyCount db.submissions slot.date ∧
          slot.count < M ∧ slot.remaining = M - slot.count ∧
          (∀ j, j < k →
            ¬(calendarStatus db (addDays start j) = some "open" ∧
              dailyCount db.submissions (addDays start j) < M)) := by
    intro slot hs
    unfold getNextAvailableDate at hs
    dsimp only at hs
    obtain ⟨k, hk0, hkh, hdate, hmem, hlt, hcount, hrem, hmin⟩ :=
      scanNext_sound db _ _ start h 0 slot hs
    cases hM : jsToNat? (getSettingD db.settings "max_bookings_per_day" "3")
      with
    | none => rw [hM] at hlt; cases hlt
    | some M =>
      rw [hM] at hlt
      simp only [jsLT, decide_eq_true_eq] at hlt
      have hopen := (mem_openDates_iff db start (addDays start h) hnd
        (addDays start k)).1 hmem
      refine ⟨M, k, rfl, by omega, hdate, ?_, ?_, ?_, ?_, ?_⟩
      · rw [hdate]; exact hopen.1
      · rw [hdate]; exact hcount
      · rw [hcount]; exact hlt
      · rw [hrem, hM]; rfl
      · intro j hj hcontra
        refine hmin j (Nat.zero_le j) hj ⟨?_, ?_⟩
        · exact (mem_openDates_iff db start (addDays start h) hnd
            (addDays start j)).2
            ⟨hcontra.1, ymdLeb_self_addDays start j,
              ymdLeb_addDays start j h (by omega)⟩
        · rw [hM]
          simp only [jsLT, decide_eq_true_eq]
          exact hcontra.2
  refine ⟨h1, ?_⟩
  intro M hM hall
  cases hres : getNextAvailableDate db start h with
  | none => rfl
  | some slot =>
    exfalso
    obtain ⟨M2, k, hM2, hkh, hdate, hstat, hcount, hlt, _, _⟩ :=
      h1 slot hres
    rw [hM] at hM2
    have hMe : M = M2 := Option.some.inj hM2
    rcases hall k (by omega) with hno | hfull
    · exact hno (hdate ▸ hstat)
    · rw [hdate] at hcount
      omega

/-- C6 witness: on the single-open-date fixture with horizon 1 the finder
returns that date with count 0 and the full characterisation holds. -/
theorem nextSlot_correct_witness :
    ∃ M k : Nat,
      jsToNat? (getSettingD exDbOpen.settings "max_bookings_per_day" "3") =
          some M ∧
        k < 1 ∧
        (NextSlot.mk exDate 0 3).date = addDays exDate k ∧
        calendarStatus exDbOpen (NextSlot.mk exDate 0 3).date =
          some "open" ∧
        (NextSlot.mk exDate 0 3).count =
          dailyCount exDbOpen.submissions (NextSlot.mk exDate 0 3).date ∧
        (NextSlot.mk exDate 0 3).count < M ∧
        (NextSlot.mk exDate 0 3).remaining =
          M - (NextSlot.mk exDate 0 3).count ∧
        (∀ j, j < k →
          ¬(calendarStatus exDbOpen (addDays exDate j) = some "open" ∧
            dailyCount exDbOpen.submissions (addDays exDate j) < M)) :=
  (nextSlot_correct exDbOpen exDate 1 (by decide)).1 ⟨exDate, 0, 3⟩ rfl
